import Mathlib

/-!
Verification of `generate_patch_report.py`: a script that extracts per-host
patch-compliance facts from the nested JSON result document of an Ansible run
(`parse_ansible_json`, `extract_value`) and renders them as a CSV table and a
Markdown table.

The Python source is modelled shallowly:
* Python strings are `String`; the string operations the script uses
  (`startswith`, `split(':', 1)[1]`, `strip`, `splitlines`, `split(' ')[0]`,
  substring containment `in`) are re-implemented as structurally recursive
  functions on `List Char` so that every definition is executable and
  kernel-reducible.
* JSON dictionary access via `.get(key, default)` is modelled with `Option`
  fields (`none` = key absent) and `Option.getD`.
* Python exceptions (`IndexError`, `KeyError`, `AttributeError`) are modelled
  with `Except PyErr`; a raised exception is an `.error` value that propagates.
-/

namespace PatchReport

/-- Python whitespace characters stripped by `str.strip()` (ASCII subset). -/
def isSpaceChar (c : Char) : Bool :=
  c = ' ' || c = '\t' || c = '\n' || c = '\r' || c = '\x0b' || c = '\x0c'

/-- Drop leading whitespace characters. -/
def dropLeadingSpace : List Char → List Char
  | [] => []
  | c :: cs => if isSpaceChar c then dropLeadingSpace cs else c :: cs

/-- Python `s.strip()`: drop leading and trailing whitespace. -/
def strTrim (s : List Char) : List Char :=
  (dropLeadingSpace ((dropLeadingSpace s).reverse)).reverse

/-- Python `s.startswith(p)`: `strStarts s p = true` iff `p` is an initial
segment of `s`. -/
def strStarts : List Char → List Char → Bool
  | _, [] => true
  | [], _ :: _ => false
  | c :: cs, d :: ds => c = d && strStarts cs ds

/-- Python `sub in s`: substring containment. -/
def strContains : List Char → List Char → Bool
  | [], sub => strStarts [] sub
  | c :: cs, sub => strStarts (c :: cs) sub || strContains cs sub

/-- Python `line.split(':', 1)[1]`: everything after the first `':'`, or
`none` when the line has no colon (in which case the Python indexing `[1]`
raises `IndexError`). -/
def afterFirstColon : List Char → Option (List Char)
  | [] => none
  | c :: cs => if c = ':' then some cs else afterFirstColon cs

/-- Python `s.split(' ')[0]`: the characters before the first space
(the whole string when it has no space). -/
def beforeFirstSpace : List Char → List Char
  | [] => []
  | c :: cs => if c = ' ' then [] else c :: beforeFirstSpace cs

/-- Python `s.splitlines()` (restricted to the terminators `"\r\n"`, `"\r"`,
`"\n"`): `acc` holds the current line reversed. A trailing terminator does not
produce a final empty line; the empty string produces no lines. -/
def splitLinesAux : List Char → List Char → List (List Char)
  | acc, [] => if acc.isEmpty then [] else [acc.reverse]
  | acc, '\r' :: '\n' :: rest => acc.reverse :: splitLinesAux [] rest
  | acc, '\r' :: rest => acc.reverse :: splitLinesAux [] rest
  | acc, '\n' :: rest => acc.reverse :: splitLinesAux [] rest
  | acc, c :: rest => splitLinesAux (c :: acc) rest

/-- Python `s.strip().splitlines()` as used for the two multi-line debug
messages. -/
def stripSplitlines (s : String) : List String :=
  (splitLinesAux [] (strTrim s.data)).map List.asString

/-- The Python exceptions the script can raise during extraction. -/
inductive PyErr where
  | indexError : PyErr
  | keyError : PyErr
  | attributeError : PyErr
deriving DecidableEq

/-- One entry of a host's own `tasks` list.
`taskName` models `task_output.get('task', ...).get('name')` and
`msg` models `task_output.get('result', ...).get('msg')`; `none` means the
key is absent (Python `None`). -/
structure TaskOutcome where
  taskName : Option String
  msg : Option String
deriving DecidableEq

/-- One host's value in the task group's `hosts` mapping; `tasks` models
`host_data.get('tasks', [])` (`none` = key absent). -/
structure HostData where
  tasks : Option (List TaskOutcome)
deriving DecidableEq

/-- One entry of a play's `tasks` list; `hosts` models `.get('hosts', ...)`,
kept as an association list to preserve the JSON object's insertion order. -/
structure TaskGroup where
  hosts : Option (List (String × HostData))
deriving DecidableEq

/-- One entry of the document's `plays` list; `tasks` models
`.get('tasks', ...)`. -/
structure Play where
  tasks : Option (List TaskGroup)
deriving DecidableEq

/-- The whole result document; `plays` models `json_data.get('plays', [])`. -/
structure ResultDoc where
  plays : Option (List Play)
deriving DecidableEq

/-- The six-field Host Report Record built for each host (the `results[host]`
dictionary; the host identifier itself is the key of the output mapping). -/
structure HostRecord where
  rockyUpdated : String
  clamavUpdated : String
  lastReboot : String
  kernelVersion : String
  javaRunning : String
deriving DecidableEq

/-- Decidable equality for `Except`, so concrete runs of the extractor can be
checked with `decide`. -/
instance exceptDecEq {ε α : Type} [DecidableEq ε] [DecidableEq α] :
    DecidableEq (Except ε α)
  | .error a, .error b =>
    match decEq a b with
    | isTrue h => isTrue (by rw [h])
    | isFalse h => isFalse (by intro c; injection c; contradiction)
  | .error _, .ok _ => isFalse (by intro c; exact Except.noConfusion c)
  | .ok _, .error _ => isFalse (by intro c; exact Except.noConfusion c)
  | .ok a, .ok b =>
    match decEq a b with
    | isTrue h => isTrue (by rw [h])
    | isFalse h => isFalse (by intro c; injection c; contradiction)

/-- `extract_value(output_lines, prefix)` from the source: scan the collected
debug lines; at the first line that starts with the label return the text
after the first colon, stripped; return `"N/A"` when no line matches.
A `none` entry models Python `None` in the list, on which
`line.startswith(...)` raises `AttributeError`; a matching line without a
colon makes `line.split(':', 1)[1]` raise `IndexError`. -/
def extract_value : List (Option String) → String → Except PyErr String
  | [], _ => .ok "N/A"
  | none :: _, _ => .error .attributeError
  | some line :: rest, label =>
    if strStarts line.data label.data then
      match afterFirstColon line.data with
      | some v => .ok (strTrim v).asString
      | none => .error .indexError
    else extract_value rest label

/-- The body of the `for task_output in host_data.get('tasks', [])` loop:
the debug lines one task outcome appends to `all_debug_msgs`. The three
single-line tasks append `result.get('msg')` verbatim (possibly `None`);
the two multi-line tasks append `result.get('msg', '').strip().splitlines()`. -/
def outcomeLines (t : TaskOutcome) : List (Option String) :=
  (if t.taskName = some "Display Last System Reboot Date and Time" then [t.msg] else [])
  ++ (if t.taskName = some "Display Date of Last Package Upgrade" then [t.msg] else [])
  ++ (if t.taskName = some "Display Current Active Kernel Version and Build Date" then [t.msg] else [])
  ++ (if t.taskName = some "Display Date of Last ClamAV Freshclam Update" then
        (stripSplitlines (t.msg.getD "")).map some else [])
  ++ (if t.taskName = some "Display Java Running Status" then
        (stripSplitlines (t.msg.getD "")).map some else [])

/-- `all_debug_msgs`: the loop over the host's task outcomes, each iteration
appending its lines to the accumulator. -/
def buildDebugMsgs (tasks : List TaskOutcome) : List (Option String) :=
  tasks.foldl (fun acc t => acc ++ outcomeLines t) []

/-- Source lines 63–67: `rocky_updated_status`. -/
def rocky_updated_status (last_pkg_upgrade : String) : String :=
  if last_pkg_upgrade = "N/A - Could not determine from DNF history." then "N/A"
  else "Last Pkg: " ++ (beforeFirstSpace last_pkg_upgrade.data).asString

/-- Source lines 69–71: `clamav_updated_status`. -/
def clamav_updated_status (clamav_update : String) : String :=
  if strContains clamav_update.data "database file not found".data then "N/A"
  else "Last AV: " ++ (beforeFirstSpace clamav_update.data).asString

/-- Source line 75: `java_running_status`. -/
def java_running_status (java_status : String) : String :=
  if strContains java_status.data "Yes, Java processes found.".data then "Yes" else "No"

/-- The per-host body of `parse_ansible_json`: build `all_debug_msgs`, run the
five `extract_value` calls in source order (the first raised exception
propagates), derive the three status fields, and assemble `results[host]`. -/
def processHost (tasks : List TaskOutcome) : Except PyErr HostRecord :=
  match extract_value (buildDebugMsgs tasks) "Last System Reboot Date/Time:" with
  | .error e => .error e
  | .ok last_reboot =>
    match extract_value (buildDebugMsgs tasks) "Date of Last Package Upgrade:" with
    | .error e => .error e
    | .ok last_pkg_upgrade =>
      match extract_value (buildDebugMsgs tasks) "Current Active Kernel Version and Build Date:" with
      | .error e => .error e
      | .ok kernel_version =>
        match extract_value (buildDebugMsgs tasks) "ClamAV Freshclam Last Database Update:" with
        | .error e => .error e
        | .ok clamav_update =>
          match extract_value (buildDebugMsgs tasks) "Java Running Status:" with
          | .error e => .error e
          | .ok java_status =>
            .ok { rockyUpdated := rocky_updated_status last_pkg_upgrade,
                  clamavUpdated := clamav_updated_status clamav_update,
                  lastReboot := last_reboot,
                  kernelVersion := kernel_version,
                  javaRunning := java_running_status java_status }

/-- `json_data.get('plays', [])[0].get('tasks', {})[-1]`:
an absent or empty `plays` list makes `[0]` raise `IndexError`; an absent
`tasks` key defaults to a dict on which `[-1]` raises `KeyError`; an empty
`tasks` list makes `[-1]` raise `IndexError`; otherwise the last task group
is selected. -/
def selectTaskGroup (d : ResultDoc) : Except PyErr TaskGroup :=
  match d.plays.getD [] with
  | [] => .error .indexError
  | p :: _ =>
    match p.tasks with
    | none => .error .keyError
    | some [] => .error .indexError
    | some (t :: ts) => .ok (List.getLast (t :: ts) (List.cons_ne_nil t ts))

/-- The `for host, host_data in ....items()` loop building `results`: one
record per host in iteration order; the first exception raised while
processing a host propagates. -/
def parseHosts : List (String × HostData) → Except PyErr (List (String × HostRecord))
  | [] => .ok []
  | (h, hd) :: rest =>
    match processHost (hd.tasks.getD []) with
    | .error e => .error e
    | .ok r =>
      match parseHosts rest with
      | .error e => .error e
      | .ok rs => .ok ((h, r) :: rs)

/-- `parse_ansible_json(json_data)`: select the last task group of the first
play and build the host-keyed mapping of records. -/
def parse_ansible_json (d : ResultDoc) : Except PyErr (List (String × HostRecord)) :=
  match selectTaskGroup d with
  | .error e => .error e
  | .ok tg => parseHosts (tg.hosts.getD [])

/-- The fixed CSV header row (`fieldnames`). -/
def csvHeader : List String :=
  ["Host", "Rocky Updated", "ClamAV Updated", "Last Reboot", "Kernel Version", "Java Running"]

/-- One CSV data row for a host (`writer.writerow(row)`), as its list of
fields in column order. -/
def csvRow (h : String) (d : HostRecord) : List String :=
  [h, d.rockyUpdated, d.clamavUpdated, d.lastReboot, d.kernelVersion, d.javaRunning]

/-- The CSV report as the list of rows written: the header row, then the
`for host, data in parsed_results.items()` loop appending one row per host. -/
def csvReport (results : List (String × HostRecord)) : List (List String) :=
  results.foldl (fun acc hd => acc ++ [csvRow hd.1 hd.2]) [csvHeader]

/-- One Markdown table row for a host, exactly the f-string of source
line 113. -/
def mdRow (h : String) (d : HostRecord) : String :=
  "| " ++ h ++ " | " ++ d.rockyUpdated ++ " | " ++ d.clamavUpdated ++ " | "
  ++ d.lastReboot ++ " | " ++ d.kernelVersion ++ " | " ++ d.javaRunning ++ " |\n"

/-- The three `mdfile.write` calls made before the host loop: title line with
the date, table header, separator. -/
def mdHeaderLines (date : String) : List String :=
  ["# Monthly Patching Report - " ++ date ++ "\n\n",
   "| Host | Rocky Updated | ClamAV Updated | Last Reboot | Kernel Version | Java Running |\n",
   "|---|---|---|---|---|---|\n"]

/-- The three `mdfile.write` calls made after the host loop. -/
def mdFooterLines : List String :=
  ["\n", "---",
   "\n\n*Note: This report covers Rocky Linux servers and ClamAV status only. Other systems (Firewalls, vSphere, etc.) require separate validation methods.*"]

/-- The Markdown report as the ordered list of strings written to the file:
header writes, one row write per host in mapping order, footer writes. -/
def markdownReport (date : String) (results : List (String × HostRecord)) : List String :=
  (results.foldl (fun acc hd => acc ++ [mdRow hd.1 hd.2]) (mdHeaderLines date)) ++ mdFooterLines

/-- The five field labels `parse_ansible_json` scans for (source lines 55–59). -/
def fieldLabels : List String :=
  ["Last System Reboot Date/Time:",
   "Date of Last Package Upgrade:",
   "Current Active Kernel Version and Build Date:",
   "ClamAV Freshclam Last Database Update:",
   "Java Running Status:"]

/-- The end-to-end example host: the five display tasks with their messages. -/
def web01Tasks : List TaskOutcome :=
  [⟨some "Display Last System Reboot Date and Time",
    some "Last System Reboot Date/Time: 2024-03-01 10:00:00"⟩,
   ⟨some "Display Date of Last Package Upgrade",
    some "Date of Last Package Upgrade: 2024-03-02 00:00:00"⟩,
   ⟨some "Display Current Active Kernel Version and Build Date",
    some "Current Active Kernel Version and Build Date: 5.14.0"⟩,
   ⟨some "Display Date of Last ClamAV Freshclam Update",
    some "ClamAV Freshclam Last Database Update: 2024-03-03 01:00:00 (older db removed)"⟩,
   ⟨some "Display Java Running Status",
    some "Java Running Status: Yes, Java processes found."⟩]

def web01Record : HostRecord :=
  ⟨"Last Pkg: 2024-03-02", "Last AV: 2024-03-03", "2024-03-01 10:00:00", "5.14.0", "Yes"⟩

/-- A result document with one play, one task group, one host `web01`
carrying the five example display tasks. -/
def web01Doc : ResultDoc := ⟨some [⟨some [⟨some [("web01", ⟨some web01Tasks⟩)]⟩]⟩]⟩

/-- `structurallyBroken d` holds exactly when the traversal
`plays[0]['tasks'][-1]` fails: no plays, or the first play has no task
groups (absent or empty `tasks`). -/
def structurallyBroken (d : ResultDoc) : Bool :=
  match d.plays.getD [] with
  | [] => true
  | p :: _ =>
    match p.tasks with
    | none => true
    | some tgs => tgs.isEmpty

/-! ## Helper lemmas -/

theorem foldl_append_join {α β : Type} (f : α → List β) :
    ∀ (l : List α) (init : List β),
      l.foldl (fun acc a => acc ++ f a) init = init ++ (l.map f).flatten := by
  intro l
  induction l with
  | nil => intro init; simp
  | cons a t ih =>
    intro init
    rw [List.foldl_cons, ih, List.map_cons, List.flatten_cons, List.append_assoc]

theorem join_map_singleton {α β : Type} (g : α → β) (l : List α) :
    (l.map (fun a => [g a])).flatten = l.map g := by
  induction l with
  | nil => rfl
  | cons a t ih => simp only [List.map_cons, List.flatten_cons, ih, List.singleton_append]

theorem extract_value_cons_some_no (line : String) (rest : List (Option String))
    (label : String) (h : strStarts line.data label.data = false) :
    extract_value (some line :: rest) label = extract_value rest label := by
  simp [extract_value, h]

theorem extract_value_no_match (label : String) :
    ∀ (msgs : List (Option String)),
      (∀ l ∈ msgs, ∃ s, l = some s ∧ strStarts s.data label.data = false) →
      extract_value msgs label = .ok "N/A" := by
  intro msgs
  induction msgs with
  | nil => intro; rfl
  | cons a rest ih =>
    intro h
    obtain ⟨s, ha, hs⟩ := h a (List.mem_cons_self a rest)
    subst ha
    rw [extract_value_cons_some_no s rest label hs]
    exact ih (fun l hl => h l (List.mem_cons_of_mem _ hl))

theorem extract_value_ok_no_match (label : String) :
    ∀ (msgs : List (Option String)) (raw : String),
      extract_value msgs label = .ok raw →
      (∀ l ∈ msgs, ∀ s, l = some s → strStarts s.data label.data = false) →
      raw = "N/A" := by
  intro msgs
  induction msgs with
  | nil =>
    intro raw hok _
    injection hok with h
    exact h.symm
  | cons a rest ih =>
    intro raw hok h
    cases a with
    | none => exact Except.noConfusion hok
    | some s =>
      have hs := h (some s) (List.mem_cons_self _ _) s rfl
      rw [extract_value_cons_some_no s rest label hs] at hok
      exact ih raw hok (fun l hl => h l (List.mem_cons_of_mem _ hl))

theorem string_append_ne (s t u : String) (h : u.length < s.length) : s ++ t ≠ u := by
  intro he
  have hl := congrArg String.length he
  rw [String.length_append] at hl
  omega

theorem processHost_ok (tasks : List TaskOutcome) (r : HostRecord)
    (h : processHost tasks = .ok r) :
    ∃ lr pkg kv cu js,
      extract_value (buildDebugMsgs tasks) "Last System Reboot Date/Time:" = .ok lr
      ∧ extract_value (buildDebugMsgs tasks) "Date of Last Package Upgrade:" = .ok pkg
      ∧ extract_value (buildDebugMsgs tasks) "Current Active Kernel Version and Build Date:" = .ok kv
      ∧ extract_value (buildDebugMsgs tasks) "ClamAV Freshclam Last Database Update:" = .ok cu
      ∧ extract_value (buildDebugMsgs tasks) "Java Running Status:" = .ok js
      ∧ r = ⟨rocky_updated_status pkg, clamav_updated_status cu, lr, kv,
             java_running_status js⟩ := by
  unfold processHost at h
  split at h
  · exact Except.noConfusion h
  next lr h1 =>
    split at h
    · exact Except.noConfusion h
    next pkg h2 =>
      split at h
      · exact Except.noConfusion h
      next kv h3 =>
        split at h
        · exact Except.noConfusion h
        next cu h4 =>
          split at h
          · exact Except.noConfusion h
          next js h5 =>
            injection h with h
            exact ⟨lr, pkg, kv, cu, js, h1, h2, h3, h4, h5, h.symm⟩

theorem parseHosts_ok :
    ∀ (l : List (String × HostData)) (res : List (String × HostRecord)),
      parseHosts l = .ok res →
      res.map Prod.fst = l.map Prod.fst
      ∧ ∀ p ∈ res, ∃ hd, (p.1, hd) ∈ l ∧ processHost (hd.tasks.getD []) = .ok p.2 := by
  intro l
  induction l with
  | nil =>
    intro res h
    injection h with h
    subst h
    exact ⟨rfl, fun p hp => absurd hp (List.not_mem_nil p)⟩
  | cons a rest ih =>
    intro res h
    obtain ⟨hn, hd⟩ := a
    unfold parseHosts at h
    split at h
    · exact Except.noConfusion h
    next r hr =>
      split at h
      · exact Except.noConfusion h
      next rs hrs =>
        injection h with h
        subst h
        obtain ⟨hmap, hmem⟩ := ih rs hrs
        constructor
        · simp only [List.map_cons, hmap]
        · intro p hp
          cases hp with
          | head => exact ⟨hd, List.mem_cons_self _ _, hr⟩
          | tail _ hp =>
            obtain ⟨hd2, hmem2, hproc⟩ := hmem p hp
            exact ⟨hd2, List.mem_cons_of_mem _ hmem2, hproc⟩

/-! ## Claims -/

/-- C1: for any Result Document whose first play's last task group contains
exactly the host `web01`, whose task outcomes are the five named display
tasks with the example messages, the extractor returns the single record
with Rocky Updated `"Last Pkg: 2024-03-02"`, ClamAV Updated
`"Last AV: 2024-03-03"`, Last Reboot `"2024-03-01 10:00:00"`, Kernel Version
`"5.14.0"`, Java Running `"Yes"`. -/
theorem c1_end_to_end (d : ResultDoc) (tg : TaskGroup) (hd : HostData)
    (hsel : selectTaskGroup d = .ok tg)
    (hhosts : tg.hosts = some [("web01", hd)])
    (htasks : hd.tasks = some web01Tasks) :
    parse_ansible_json d = .ok [("web01", web01Record)] := by
  have hph : processHost (hd.tasks.getD []) = Except.ok web01Record := by
    rw [htasks]
    decide
  unfold parse_ansible_json
  rw [hsel]
  show parseHosts (tg.hosts.getD []) = _
  rw [hhosts]
  show parseHosts [("web01", hd)] = _
  unfold parseHosts
  rw [hph]
  rfl

/-- Witness for C1 at the concrete one-play, one-task-group document. -/
theorem c1_end_to_end_witness :
    parse_ansible_json web01Doc = .ok [("web01", web01Record)] :=
  c1_end_to_end web01Doc ⟨some [("web01", ⟨some web01Tasks⟩)]⟩ ⟨some web01Tasks⟩
    (by decide) rfl rfl

/-- C2: for every host processed by the extractor, the Rocky-update status
equals `"Last Pkg: " ++ first token of the raw package-upgrade value` iff
that raw value differs from the sentinel
`"N/A - Could not determine from DNF history."`; otherwise it is `"N/A"`. -/
theorem c2_rocky_status (tasks : List TaskOutcome) (r : HostRecord) (raw : String)
    (hr : processHost tasks = .ok r)
    (hraw : extract_value (buildDebugMsgs tasks) "Date of Last Package Upgrade:" = .ok raw) :
    (r.rockyUpdated = "Last Pkg: " ++ (beforeFirstSpace raw.data).asString
      ↔ raw ≠ "N/A - Could not determine from DNF history.")
    ∧ (raw = "N/A - Could not determine from DNF history." → r.rockyUpdated = "N/A") := by
  obtain ⟨lr, pkg, kv, cu, js, e1, e2, e3, e4, e5, hrec⟩ := processHost_ok tasks r hr
  rw [e2] at hraw
  injection hraw with hpkg
  subst hpkg
  have hfield : r.rockyUpdated = rocky_updated_status pkg := by rw [hrec]
  rw [hfield]
  constructor
  · by_cases hc : pkg = "N/A - Could not determine from DNF history."
    · subst hc
      decide
    · simp [rocky_updated_status, hc]
  · intro hc
    subst hc
    decide

/-- Witness for C2 at a host carrying a package-upgrade message. -/
theorem c2_rocky_status_witness :
    (HostRecord.rockyUpdated ⟨"Last Pkg: 2024-03-02", "Last AV: N/A", "N/A", "N/A", "No"⟩
        = "Last Pkg: " ++ (beforeFirstSpace ("2024-03-02 00:00:00" : String).data).asString
      ↔ ("2024-03-02 00:00:00" : String) ≠ "N/A - Could not determine from DNF history.")
    ∧ (("2024-03-02 00:00:00" : String) = "N/A - Could not determine from DNF history."
       → HostRecord.rockyUpdated
           ⟨"Last Pkg: 2024-03-02", "Last AV: N/A", "N/A", "N/A", "No"⟩ = "N/A") :=
  c2_rocky_status
    [⟨some "Display Date of Last Package Upgrade",
      some "Date of Last Package Upgrade: 2024-03-02 00:00:00"⟩]
    ⟨"Last Pkg: 2024-03-02", "Last AV: N/A", "N/A", "N/A", "No"⟩
    "2024-03-02 00:00:00" (by decide) (by decide)

/-- C3 counterexample: a host whose ClamAV-display task is entirely absent
but whose Java-display task's message smuggles in a ClamAV-labelled line gets
a raw ClamAV value of `"2020-01-01 (older db removed)"` (not `"N/A"`) and a
status of `"Last AV: 2020-01-01"` (not `"Last AV: N/A"`), refuting the
claim's "in particular" sentence as stated. -/
theorem c3_counterexample :
    ([⟨some "Display Java Running Status",
       some "ClamAV Freshclam Last Database Update: 2020-01-01 (older db removed)"⟩]
      : List TaskOutcome).all
        (fun t => t.taskName ≠ some "Display Date of Last ClamAV Freshclam Update")
    ∧ extract_value
        (buildDebugMsgs
          [⟨some "Display Java Running Status",
            some "ClamAV Freshclam Last Database Update: 2020-01-01 (older db removed)"⟩])
        "ClamAV Freshclam Last Database Update:" = .ok "2020-01-01 (older db removed)"
    ∧ processHost
        [⟨some "Display Java Running Status",
          some "ClamAV Freshclam Last Database Update: 2020-01-01 (older db removed)"⟩]
        = .ok ⟨"Last Pkg: N/A", "Last AV: 2020-01-01", "N/A", "N/A", "No"⟩
    ∧ ("2020-01-01 (older db removed)" : String) ≠ "N/A"
    ∧ ("Last AV: 2020-01-01" : String) ≠ "Last AV: N/A" := by decide

/-- C3 (amended): the ClamAV-update status equals
`"Last AV: " ++ first token of the raw ClamAV value` iff the raw value does
not contain `"database file not found"`, and otherwise is `"N/A"`; when the
host's diagnostic lines contain no ClamAV-labelled line at all (so the raw
value is the scan-miss sentinel `"N/A"`), the status is `"Last AV: N/A"`. -/
theorem c3_clamav_status (tasks : List TaskOutcome) (r : HostRecord) (raw : String)
    (hr : processHost tasks = .ok r)
    (hraw : extract_value (buildDebugMsgs tasks)
              "ClamAV Freshclam Last Database Update:" = .ok raw) :
    (r.clamavUpdated = "Last AV: " ++ (beforeFirstSpace raw.data).asString
      ↔ strContains raw.data "database file not found".data = false)
    ∧ (strContains raw.data "database file not found".data = true
       → r.clamavUpdated = "N/A")
    ∧ (raw = "N/A" → r.clamavUpdated = "Last AV: N/A")
    ∧ ((∀ l ∈ buildDebugMsgs tasks, ∀ s, l = some s →
          strStarts s.data "ClamAV Freshclam Last Database Update:".data = false)
       → r.clamavUpdated = "Last AV: N/A") := by
  obtain ⟨lr, pkg, kv, cu, js, e1, e2, e3, e4, e5, hrec⟩ := processHost_ok tasks r hr
  rw [e4] at hraw
  injection hraw with hcu
  subst hcu
  have hfield : r.clamavUpdated = clamav_updated_status cu := by rw [hrec]
  rw [hfield]
  refine ⟨?_, ?_, ?_, ?_⟩
  · cases hc : strContains cu.data "database file not found".data with
    | true =>
      have hn : clamav_updated_status cu = "N/A" := by
        unfold clamav_updated_status
        rw [if_pos hc]
      rw [hn]
      constructor
      · intro hfalse
        exact absurd hfalse.symm (string_append_ne _ _ _ (by decide))
      · intro hfalse
        exact Bool.noConfusion hfalse
    | false =>
      have hn : clamav_updated_status cu
          = "Last AV: " ++ (beforeFirstSpace cu.data).asString := by
        unfold clamav_updated_status
        rw [if_neg (by simp [hc])]
      rw [hn]
      simp
  · intro hc
    unfold clamav_updated_status
    rw [if_pos hc]
  · intro hc
    subst hc
    decide
  · intro hnone
    have hna := extract_value_ok_no_match _ _ _ e4 hnone
    subst hna
    decide

/-- Witness for C3 (amended) at a host with no task outcomes. -/
theorem c3_clamav_status_witness :
    (HostRecord.clamavUpdated ⟨"Last Pkg: N/A", "Last AV: N/A", "N/A", "N/A", "No"⟩
        = "Last AV: " ++ (beforeFirstSpace ("N/A" : String).data).asString
      ↔ strContains ("N/A" : String).data "database file not found".data = false)
    ∧ (strContains ("N/A" : String).data "database file not found".data = true
       → HostRecord.clamavUpdated
           ⟨"Last Pkg: N/A", "Last AV: N/A", "N/A", "N/A", "No"⟩ = "N/A")
    ∧ (("N/A" : String) = "N/A"
       → HostRecord.clamavUpdated
           ⟨"Last Pkg: N/A", "Last AV: N/A", "N/A", "N/A", "No"⟩ = "Last AV: N/A")
    ∧ ((∀ l ∈ buildDebugMsgs [], ∀ s, l = some s →
          strStarts s.data "ClamAV Freshclam Last Database Update:".data = false)
       → HostRecord.clamavUpdated
           ⟨"Last Pkg: N/A", "Last AV: N/A", "N/A", "N/A", "No"⟩ = "Last AV: N/A") :=
  c3_clamav_status [] ⟨"Last Pkg: N/A", "Last AV: N/A", "N/A", "N/A", "No"⟩ "N/A"
    (by decide) (by decide)

/-- C4: the Java-running flag is `"Yes"` iff the raw Java status value
contains the substring `"Yes, Java processes found."`; every other raw value,
including the scan-miss sentinel `"N/A"`, yields `"No"`. -/
theorem c4_java_flag (tasks : List TaskOutcome) (r : HostRecord) (raw : String)
    (hr : processHost tasks = .ok r)
    (hraw : extract_value (buildDebugMsgs tasks) "Java Running Status:" = .ok raw) :
    (r.javaRunning = "Yes"
      ↔ strContains raw.data "Yes, Java processes found.".data = true)
    ∧ (strContains raw.data "Yes, Java processes found.".data = false
       → r.javaRunning = "No")
    ∧ (raw = "N/A" → r.javaRunning = "No") := by
  obtain ⟨lr, pkg, kv, cu, js, e1, e2, e3, e4, e5, hrec⟩ := processHost_ok tasks r hr
  rw [e5] at hraw
  injection hraw with hjs
  subst hjs
  have hfield : r.javaRunning = java_running_status js := by rw [hrec]
  rw [hfield]
  refine ⟨?_, ?_, ?_⟩
  · cases hc : strContains js.data "Yes, Java processes found.".data with
    | true =>
      have hy : java_running_status js = "Yes" := by
        unfold java_running_status
        rw [if_pos hc]
      rw [hy]
      simp
    | false =>
      have hn : java_running_status js = "No" := by
        unfold java_running_status
        rw [if_neg (by simp [hc])]
      rw [hn]
      constructor
      · intro hfalse
        exact absurd hfalse (by decide)
      · intro hfalse
        exact Bool.noConfusion hfalse
  · intro hc
    unfold java_running_status
    rw [if_neg (by simp [hc])]
  · intro hc
    subst hc
    decide

/-- Witness for C4 at a host whose Java task reports running processes. -/
theorem c4_java_flag_witness :
    (HostRecord.javaRunning ⟨"Last Pkg: N/A", "Last AV: N/A", "N/A", "N/A", "Yes"⟩ = "Yes"
      ↔ strContains ("Yes, Java processes found." : String).data
          "Yes, Java processes found.".data = true)
    ∧ (strContains ("Yes, Java processes found." : String).data
          "Yes, Java processes found.".data = false
       → HostRecord.javaRunning
           ⟨"Last Pkg: N/A", "Last AV: N/A", "N/A", "N/A", "Yes"⟩ = "No")
    ∧ (("Yes, Java processes found." : String) = "N/A"
       → HostRecord.javaRunning
           ⟨"Last Pkg: N/A", "Last AV: N/A", "N/A", "N/A", "Yes"⟩ = "No") :=
  c4_java_flag
    [⟨some "Display Java Running Status",
      some "Java Running Status: Yes, Java processes found."⟩]
    ⟨"Last Pkg: N/A", "Last AV: N/A", "N/A", "N/A", "Yes"⟩
    "Yes, Java processes found." (by decide) (by decide)

/-- C5 counterexample: a host with zero matching lines (no task outcomes at
all) gets the derived fields `("Last Pkg: N/A", "Last AV: N/A", "No")`, not
`("N/A", "N/A", "No")` as the claim states. -/
theorem c5_counterexample :
    processHost [] = .ok ⟨"Last Pkg: N/A", "Last AV: N/A", "N/A", "N/A", "No"⟩
    ∧ ("Last Pkg: N/A" : String) ≠ "N/A"
    ∧ ("Last AV: N/A" : String) ≠ "N/A" := by decide

/-- C5 (amended): for every host whose Diagnostic Line Set contains no line
starting with any of the five recognized field labels, all five raw fields
resolve to `"N/A"` and the derived fields are
`("Last Pkg: N/A", "Last AV: N/A", "No")`. -/
theorem c5_no_match_defaults (tasks : List TaskOutcome)
    (h : ∀ l ∈ buildDebugMsgs tasks, ∃ s, l = some s ∧
          ∀ lbl ∈ fieldLabels, strStarts s.data lbl.data = false) :
    processHost tasks = .ok ⟨"Last Pkg: N/A", "Last AV: N/A", "N/A", "N/A", "No"⟩ := by
  have hx : ∀ lbl ∈ fieldLabels,
      extract_value (buildDebugMsgs tasks) lbl = .ok "N/A" := by
    intro lbl hlbl
    refine extract_value_no_match lbl _ (fun l hl => ?_)
    obtain ⟨s, hls, hs⟩ := h l hl
    exact ⟨s, hls, hs lbl hlbl⟩
  have h1 := hx "Last System Reboot Date/Time:" (by decide)
  have h2 := hx "Date of Last Package Upgrade:" (by decide)
  have h3 := hx "Current Active Kernel Version and Build Date:" (by decide)
  have h4 := hx "ClamAV Freshclam Last Database Update:" (by decide)
  have h5 := hx "Java Running Status:" (by decide)
  unfold processHost
  rw [h1, h2, h3, h4, h5]
  decide

/-- Witness for C5 (amended) at a host with no task outcomes. -/
theorem c5_no_match_defaults_witness :
    processHost [] = .ok ⟨"Last Pkg: N/A", "Last AV: N/A", "N/A", "N/A", "No"⟩ :=
  c5_no_match_defaults []
    (fun l hl => absurd hl (List.not_mem_nil l))

/-- C6: whenever the extractor succeeds, the output mapping has exactly one
record per host of the selected task group, with the same keys in the same
order, and each record is the (total, all-six-string-fields) `HostRecord`
produced by `processHost` for that host's data. -/
theorem c6_one_record_per_host (d : ResultDoc) (tg : TaskGroup)
    (results : List (String × HostRecord))
    (hsel : selectTaskGroup d = .ok tg)
    (hp : parse_ansible_json d = .ok results) :
    results.map Prod.fst = (tg.hosts.getD []).map Prod.fst
    ∧ results.length = (tg.hosts.getD []).length
    ∧ ∀ p ∈ results, ∃ hd, (p.1, hd) ∈ tg.hosts.getD []
        ∧ processHost (hd.tasks.getD []) = .ok p.2 := by
  unfold parse_ansible_json at hp
  rw [hsel] at hp
  obtain ⟨hmap, hmem⟩ := parseHosts_ok _ _ hp
  refine ⟨hmap, ?_, hmem⟩
  have hlen := congrArg List.length hmap
  simpa using hlen

/-- Witness for C6 at a one-host document. -/
theorem c6_one_record_per_host_witness :
    ([("hostA", (⟨"Last Pkg: N/A", "Last AV: N/A", "N/A", "N/A", "No"⟩ : HostRecord))].map
        Prod.fst
      = ((⟨some [("hostA", ⟨some []⟩)]⟩ : TaskGroup).hosts.getD []).map Prod.fst)
    ∧ [("hostA", (⟨"Last Pkg: N/A", "Last AV: N/A", "N/A", "N/A", "No"⟩ : HostRecord))].length
      = ((⟨some [("hostA", ⟨some []⟩)]⟩ : TaskGroup).hosts.getD []).length
    ∧ ∀ p ∈ [("hostA", (⟨"Last Pkg: N/A", "Last AV: N/A", "N/A", "N/A", "No"⟩ : HostRecord))],
        ∃ hd, (p.1, hd) ∈ (⟨some [("hostA", ⟨some []⟩)]⟩ : TaskGroup).hosts.getD []
          ∧ processHost (hd.tasks.getD []) = .ok p.2 :=
  c6_one_record_per_host ⟨some [⟨some [⟨some [("hostA", ⟨some []⟩)]⟩]⟩]⟩
    ⟨some [("hostA", ⟨some []⟩)]⟩
    [("hostA", ⟨"Last Pkg: N/A", "Last AV: N/A", "N/A", "N/A", "No"⟩)]
    (by decide) (by decide)

/-- C7 counterexample: two task outcomes both yielding a reboot-labelled
line — one smuggled through the Java-display task, one from the
reboot-display task. In outcome order `[java, reboot]` the extractor reports
`"11:11"`; permuting to `[reboot, java]` it reports `"22:22"`. So the
Diagnostic Line Set follows the order the task outcomes appear, and a
permutation does change which same-labelled line is found first. -/
theorem c7_counterexample :
    List.Perm
      [(⟨some "Display Java Running Status",
         some "Last System Reboot Date/Time: 11:11"⟩ : TaskOutcome),
       ⟨some "Display Last System Reboot Date and Time",
         some "Last System Reboot Date/Time: 22:22"⟩]
      [⟨some "Display Last System Reboot Date and Time",
         some "Last System Reboot Date/Time: 22:22"⟩,
       ⟨some "Display Java Running Status",
         some "Last System Reboot Date/Time: 11:11"⟩]
    ∧ processHost
        [⟨some "Display Java Running Status",
          some "Last System Reboot Date/Time: 11:11"⟩,
         ⟨some "Display Last System Reboot Date and Time",
          some "Last System Reboot Date/Time: 22:22"⟩]
        = .ok ⟨"Last Pkg: N/A", "Last AV: N/A", "11:11", "N/A", "No"⟩
    ∧ processHost
        [⟨some "Display Last System Reboot Date and Time",
          some "Last System Reboot Date/Time: 22:22"⟩,
         ⟨some "Display Java Running Status",
          some "Last System Reboot Date/Time: 11:11"⟩]
        = .ok ⟨"Last Pkg: N/A", "Last AV: N/A", "22:22", "N/A", "No"⟩
    ∧ ("11:11" : String) ≠ "22:22" :=
  ⟨List.Perm.swap _ _ [], by decide, by decide, by decide⟩

/-- C7 (amended): the Diagnostic Line Set is the concatenation, in the order
the host's task outcomes appear, of the lines each outcome contributes under
the five fixed task-name checks. -/
theorem c7_outcome_order (tasks : List TaskOutcome) :
    buildDebugMsgs tasks = (tasks.map outcomeLines).flatten := by
  unfold buildDebugMsgs
  rw [foldl_append_join]
  rfl

/-- C8: the extractor fails with an index/key error on every document with
no plays or whose first play has no task groups; on every structurally sound
document whose selected (last) task group has an empty host mapping it
succeeds with the empty mapping. -/
theorem c8_structure (d : ResultDoc) :
    (structurallyBroken d = true →
      parse_ansible_json d = .error .indexError
      ∨ parse_ansible_json d = .error .keyError)
    ∧ (structurallyBroken d = false →
      ∃ tg, selectTaskGroup d = .ok tg
        ∧ (tg.hosts.getD [] = [] → parse_ansible_json d = .ok [])) := by
  obtain ⟨plays⟩ := d
  cases plays with
  | none => exact ⟨fun _ => Or.inl rfl, fun hfalse => Bool.noConfusion hfalse⟩
  | some l =>
    cases l with
    | nil => exact ⟨fun _ => Or.inl rfl, fun hfalse => Bool.noConfusion hfalse⟩
    | cons p ps =>
      obtain ⟨ptasks⟩ := p
      cases ptasks with
      | none => exact ⟨fun _ => Or.inr rfl, fun hfalse => Bool.noConfusion hfalse⟩
      | some tgs =>
        cases tgs with
        | nil => exact ⟨fun _ => Or.inl rfl, fun hfalse => Bool.noConfusion hfalse⟩
        | cons t ts =>
          refine ⟨fun hb => Bool.noConfusion hb, fun _ => ?_⟩
          refine ⟨List.getLast (t :: ts) (List.cons_ne_nil t ts), rfl, fun hh => ?_⟩
          show parseHosts (((t :: ts).getLast (List.cons_ne_nil t ts)).hosts.getD [])
            = Except.ok []
          rw [hh]
          rfl

/-- Witness for C8: a document with no `plays` key fails; a one-play,
one-task-group document whose task group has no `hosts` key yields the empty
mapping. -/
theorem c8_structure_witness :
    (parse_ansible_json ⟨none⟩ = .error .indexError
     ∨ parse_ansible_json ⟨none⟩ = .error .keyError)
    ∧ parse_ansible_json ⟨some [⟨some [⟨none⟩]⟩]⟩ = .ok [] := by
  refine ⟨(c8_structure ⟨none⟩).1 rfl, ?_⟩
  obtain ⟨tg, hsel, himp⟩ := (c8_structure ⟨some [⟨some [⟨none⟩]⟩]⟩).2 rfl
  have he : selectTaskGroup ⟨some [⟨some [⟨none⟩]⟩]⟩ = .ok ⟨none⟩ := rfl
  rw [he] at hsel
  injection hsel with hsel
  subst hsel
  exact himp rfl

/-- C9 (code bug): a host whose reboot-display task is present but whose
result carries no `msg` gets a `None` appended to `all_debug_msgs`, and the
very first `extract_value` call raises `AttributeError`
(`None.startswith`), so the extractor does raise for this pattern of missing
data instead of resolving the field to `"N/A"`. -/
theorem c9_missing_msg_raises :
    buildDebugMsgs [⟨some "Display Last System Reboot Date and Time", none⟩] = [none]
    ∧ processHost [⟨some "Display Last System Reboot Date and Time", none⟩]
      = .error .attributeError
    ∧ parse_ansible_json
        ⟨some [⟨some [⟨some [("web01",
          ⟨some [⟨some "Display Last System Reboot Date and Time", none⟩]⟩)]⟩]⟩]⟩
      = .error .attributeError := by decide

/-- C10: both reports emit the fixed header material followed by exactly one
data row per host, in the mapping's iteration order. -/
theorem c10_reporter_rows (date : String) (results : List (String × HostRecord)) :
    csvReport results = csvHeader :: results.map (fun hd => csvRow hd.1 hd.2)
    ∧ (csvReport results).length = results.length + 1
    ∧ markdownReport date results
      = mdHeaderLines date ++ results.map (fun hd => mdRow hd.1 hd.2) ++ mdFooterLines
    ∧ (markdownReport date results).length = results.length + 6 := by
  have hcsv : csvReport results
      = csvHeader :: results.map (fun hd => csvRow hd.1 hd.2) := by
    unfold csvReport
    rw [foldl_append_join, join_map_singleton]
    rfl
  have hmd : markdownReport date results
      = mdHeaderLines date ++ results.map (fun hd => mdRow hd.1 hd.2) ++ mdFooterLines := by
    unfold markdownReport
    rw [foldl_append_join, join_map_singleton]
  refine ⟨hcsv, ?_, hmd, ?_⟩
  · rw [hcsv]
    simp
  · rw [hmd]
    simp [mdHeaderLines, mdFooterLines]

end PatchReport
